import Mathlib

/-!
Shallow embedding of `cvxpy/problems/solvers/xpress_intf.py` (the CVXPY
interface to the FICO Xpress optimizer) and proofs about it.

The interface manipulates dynamically typed Python values: the native Xpress
status codes are integers, the canonical CVXPY statuses are strings, and
`None` appears as a field value.  We model just enough of that dynamic
universe (`PyVal`) to state the comparisons the source performs literally.
Numeric problem data is modelled over `ℚ`; the claims under study are about
index sets, structure and control flow, not floating-point rounding.
-/

set_option autoImplicit false
set_option linter.unusedVariables false

namespace XpressIntf

/-- Dynamically typed Python values as manipulated by the interface:
integers (native Xpress status codes), strings (canonical CVXPY status
constants), and the Python value `None`. -/
inductive PyVal where
  | int (n : Int)
  | str (s : String)
  | pynone
  deriving DecidableEq, Repr

/-- Modelled from the spec: canonical status `OPTIMAL` of `cvxpy.settings`
(the `settings` module is not under `src/`; §4.5 of the spec fixes the four
canonical statuses, which in cvxpy are distinct string constants). -/
def OPTIMAL : PyVal := .str "optimal"

/-- Modelled from the spec: canonical status `INFEASIBLE` of `cvxpy.settings`. -/
def INFEASIBLE : PyVal := .str "infeasible"

/-- Modelled from the spec: canonical status `UNBOUNDED` of `cvxpy.settings`. -/
def UNBOUNDED : PyVal := .str "unbounded"

/-- Modelled from the spec: canonical status `SOLVER_ERROR` of `cvxpy.settings`. -/
def SOLVER_ERROR : PyVal := .str "solver_error"

/-- Modelled from the spec: canonical status `OPTIMAL_INACCURATE` of
`cvxpy.settings` (an implementation-defined "solution present" status,
spec §4.6). -/
def OPTIMAL_INACCURATE : PyVal := .str "optimal_inaccurate"

/-- Modelled from the spec: `cvxpy.settings.SOLUTION_PRESENT`, the statuses
for which a solution is guaranteed present (spec §4.6: `OPTIMAL` and
implementation-defined others flagged "solution present"). -/
def SOLUTION_PRESENT : List PyVal := [OPTIMAL, OPTIMAL_INACCURATE]

/-- The four canonical statuses of the status-translation tables (spec §4.5). -/
def canonicalStatuses : List PyVal := [OPTIMAL, INFEASIBLE, UNBOUNDED, SOLVER_ERROR]

/-- Constant `xpress.lp_unstarted` of the external xpress module
(`XPRS_LP_UNSTARTED = 0`). -/
def lp_unstarted : PyVal := .int 0

/-- Constant `xpress.lp_optimal` (`XPRS_LP_OPTIMAL = 1`). -/
def lp_optimal : PyVal := .int 1

/-- Constant `xpress.lp_infeas` (`XPRS_LP_INFEAS = 2`). -/
def lp_infeas : PyVal := .int 2

/-- Constant `xpress.lp_cutoff` (`XPRS_LP_CUTOFF = 3`). -/
def lp_cutoff : PyVal := .int 3

/-- Constant `xpress.lp_unfinished` (`XPRS_LP_UNFINISHED = 4`). -/
def lp_unfinished : PyVal := .int 4

/-- Constant `xpress.lp_unbounded` (`XPRS_LP_UNBOUNDED = 5`). -/
def lp_unbounded : PyVal := .int 5

/-- Constant `xpress.lp_cutoff_in_dual` (`XPRS_LP_CUTOFF_IN_DUAL = 6`). -/
def lp_cutoff_in_dual : PyVal := .int 6

/-- Constant `xpress.lp_unsolved` (`XPRS_LP_UNSOLVED = 7`). -/
def lp_unsolved : PyVal := .int 7

/-- Constant `xpress.lp_nonconvex` (`XPRS_LP_NONCONVEX = 8`). -/
def lp_nonconvex : PyVal := .int 8

/-- Constant `xpress.mip_not_loaded` (`XPRS_MIP_NOT_LOADED = 0`). -/
def mip_not_loaded : PyVal := .int 0

/-- Constant `xpress.mip_lp_not_optimal` (`XPRS_MIP_LP_NOT_OPTIMAL = 1`). -/
def mip_lp_not_optimal : PyVal := .int 1

/-- Constant `xpress.mip_lp_optimal` (`XPRS_MIP_LP_OPTIMAL = 2`). -/
def mip_lp_optimal : PyVal := .int 2

/-- Constant `xpress.mip_no_sol_found` (`XPRS_MIP_NO_SOL_FOUND = 3`). -/
def mip_no_sol_found : PyVal := .int 3

/-- Constant `xpress.mip_solution` (`XPRS_MIP_SOLUTION = 4`). -/
def mip_solution : PyVal := .int 4

/-- Constant `xpress.mip_infeas` (`XPRS_MIP_INFEAS = 5`). -/
def mip_infeas : PyVal := .int 5

/-- Constant `xpress.mip_optimal` (`XPRS_MIP_OPTIMAL = 6`). -/
def mip_optimal : PyVal := .int 6

/-- Constant `xpress.mip_unbounded` (`XPRS_MIP_UNBOUNDED = 7`). -/
def mip_unbounded : PyVal := .int 7

/-- Embedding of `XPRESS.status_map_lp` (xpress_intf.py lines 64-76): map of
Xpress LP status to CVXPY status, in literal order. -/
def status_map_lp : List (PyVal × PyVal) :=
  [ (lp_unstarted,      SOLVER_ERROR),
    (lp_optimal,        OPTIMAL),
    (lp_infeas,         INFEASIBLE),
    (lp_cutoff,         SOLVER_ERROR),
    (lp_unfinished,     SOLVER_ERROR),
    (lp_unbounded,      UNBOUNDED),
    (lp_cutoff_in_dual, SOLVER_ERROR),
    (lp_unsolved,       SOLVER_ERROR),
    (lp_nonconvex,      SOLVER_ERROR) ]

/-- Embedding of `XPRESS.status_map_mip` (xpress_intf.py lines 78-89): the
same map, for MIPs. -/
def status_map_mip : List (PyVal × PyVal) :=
  [ (mip_not_loaded,     SOLVER_ERROR),
    (mip_lp_not_optimal, SOLVER_ERROR),
    (mip_lp_optimal,     SOLVER_ERROR),
    (mip_no_sol_found,   SOLVER_ERROR),
    (mip_solution,       SOLVER_ERROR),
    (mip_infeas,         INFEASIBLE),
    (mip_optimal,        OPTIMAL),
    (mip_unbounded,      UNBOUNDED) ]

/-- Python dict subscription `d[k]`: the value when the key is present,
otherwise a `KeyError` (the spec calls this hard failure `UnknownStatus`). -/
def dictGet (d : List (PyVal × PyVal)) (k : PyVal) : Except String PyVal :=
  match d.lookup k with
  | some v => Except.ok v
  | none => Except.error "KeyError: UnknownStatus"

/-- Key set of a Python dict modelled as an association list. -/
def dictKeys (d : List (PyVal × PyVal)) : List PyVal := d.map (fun p => p.1)

/-! ## SparseColumnIndexBuilder: `makeMstart` (xpress_intf.py lines 29-38) -/

/-- Length of the array `numpy.bincount` returns on a nonnegative input:
one more than the maximum entry, and `0` for an empty input. -/
def bcLen (nl : List Nat) : Nat :=
  nl.foldr (fun i acc => max (i + 1) acc) 0

/-- Embedding of `numpy.bincount` on the coordinate array: counts
occurrences of each value `0..max`; numpy raises `ValueError` when the
input has a negative element (the spec's `InvalidInput`). -/
def bincount (l : List Int) : Except String (List Nat) :=
  if l.any (fun i => decide (i < 0)) then Except.error "InvalidInput"
  else
    Except.ok ((List.range (bcLen (l.map Int.toNat))).map
      (fun i => (l.map Int.toNat).count i))

/-- Embedding of `numpy.cumsum`: inclusive running sums, same length. -/
def cumsum : List Nat → Nat → List Nat
  | [], _ => []
  | x :: xs, acc => (acc + x) :: cumsum xs (acc + x)

/-- Embedding of `makeMstart` (xpress_intf.py lines 29-38), taken on the
nonzero coordinate array `A.nonzero()[ifCol]`: bincount the coordinates,
concatenate a leading zero and a zero padding up to length `n` (Python's
`[0] * (n - len(mstart))` is empty when the difference is negative, as is
`List.replicate` under truncated subtraction), then take the running sum. -/
def makeMstart (coords : List Int) (n : Nat) : Except String (List Nat) :=
  match bincount coords with
  | Except.error e => Except.error e
  | Except.ok cnt =>
      Except.ok (cumsum ([0] ++ cnt ++ List.replicate (n - cnt.length) 0) 0)

/-! ## StatusTranslator dispatch (xpress_intf.py lines 394-397, 455-458) -/

/-- Modelled from the spec: `Solver.is_mip` of the base `Solver` class (not
under src/); per spec §4.5, selection between the two translation tables is
driven by whether the canonical problem declares any boolean/integer
variables. -/
def isMipProblem (boolIdx intIdx : List Nat) : Bool :=
  decide (0 < boolIdx.length) || decide (0 < intIdx.length)

/-- Embedding of the table dispatch (xpress_intf.py lines 394-397 and
455-458): the MIP table when `is_mip`, the LP table otherwise. -/
def applicableTable (isMip : Bool) : List (PyVal × PyVal) :=
  if isMip then status_map_mip else status_map_lp

/-- Native status codes reachable from a real solve: `getProbStatus` yields
the Xpress MIPSTATUS codes for a MIP and the LPSTATUS codes otherwise
(constants of the external xpress module). -/
def nativeStatusDomain : Bool → List PyVal
  | true =>
    [mip_not_loaded, mip_lp_not_optimal, mip_lp_optimal, mip_no_sol_found,
     mip_solution, mip_infeas, mip_optimal, mip_unbounded]
  | false =>
    [lp_unstarted, lp_optimal, lp_infeas, lp_cutoff, lp_unfinished,
     lp_unbounded, lp_cutoff_in_dual, lp_unsolved, lp_nonconvex]

/-! ## Data model (spec §3; xpress_intf.py lines 154-180) -/

/-- The Xpress problem object as far as this layer observes it: an opaque
handle plus the column-type array that `getcoltype` reads back. -/
structure XpressProb where
  handle : Nat
  coltypes : List Char
  deriving DecidableEq, Repr

/-- Embedding of `prob.getcoltype (vartype, 0, len (data [s.C]) - 1)`:
read back the types of columns `0 .. n-1`. -/
def getcoltype (inst : XpressProb) (n : Nat) : List Char :=
  inst.coltypes.take n

/-- Cache entry `solver_cache.prev_result` as written by `format_results`
(xpress_intf.py lines 441-453). -/
structure PrevResult where
  problem : XpressProb
  obj : List ℚ
  mat : List (List ℚ)
  rhs : List ℚ
  cone_ind : List Nat
  vartype : List Char
  deriving DecidableEq, Repr

/-- Canonical problem data as `XPRESS.solve` unpacks it from
`get_problem_data` (lines 154-180): objective `c`, full constraint matrix
`A` (dense row list — the warm path performs a full elementwise sparse
comparison, spec §9), full rhs `b`, dimension descriptor, and discrete
index sets.  `objHasParams` and `conHasParams` carry the outcome of the
`linutils.get_expr_params` emptiness tests of lines 206 and 217 (lin_utils
is not under src/; whether a symbolic parameter occurs is an attribute of
the input problem, carried here as a flag). -/
structure ProbData where
  c : List ℚ
  A : List (List ℚ)
  b : List ℚ
  eqDim : Nat
  leqDim : Nat
  socDim : List Nat
  boolIdx : List Nat
  intIdx : List Nat
  objHasParams : Bool
  conHasParams : Bool
  deriving DecidableEq, Repr

/-- Number of linear rows, `nrows = nrowsEQ + nrowsLEQ` (lines 170-172). -/
def ProbData.nrowsLin (d : ProbData) : Nat := d.eqDim + d.leqDim

/-! ## WarmStartDiffer (xpress_intf.py lines 189-234) -/

/-- Embedding of the warm-start condition (lines 189-193): warm start was
requested, a previous result is cached, the variable count matches the
cached objective length, the linear row count matches the cached rhs
length, and the cone-size sequence equals the cached one. -/
def warmStartEligible (warm_start : Bool) (prev : Option PrevResult)
    (n nrows : Nat) (socDim : List Nat) : Bool :=
  warm_start &&
    (match prev with
     | none => false
     | some p =>
         decide (n = p.obj.length) && decide (nrows = p.rhs.length) &&
           decide (socDim = p.cone_ind))

/-- The branch `XPRESS.solve` takes (lines 189-238): `true` is the
warm-start path, `false` the cold from-scratch load. -/
def solveLoadPath (d : ProbData) (cache : Option PrevResult) (warm_start : Bool) : Bool :=
  warmStartEligible warm_start cache d.c.length d.nrowsLin d.socDim

/-- Embedding of `numpy.where (u != v) [0]` on two equal-length vectors:
the index set where they differ. -/
def diffIdx (u v : List ℚ) : List Nat :=
  (List.range u.length).filter (fun i => decide (u.getD i 0 ≠ v.getD i 0))

/-- Embedding of `(A != A0).tocoo ()` on two equal-shape matrices: the
(row, column) coordinates where the elementwise comparison is true (a full
elementwise comparison, spec §9). -/
def diffCoords (M M0 : List (List ℚ)) : List (Nat × Nat) :=
  (List.range M.length).flatMap (fun i =>
    ((List.range (M.getD i []).length).filter
      (fun j => decide ((M.getD i []).getD j 0 ≠ (M0.getD i []).getD j 0))).map
      (fun j => (i, j)))

/-- Subscript values a Python list subscription receives in this code: a
plain integer, or a numpy boolean mask (`vartype [vti]`, line 234). -/
inductive PySubscript where
  | intIdx (i : Int)
  | boolMask (m : List Bool)
  deriving DecidableEq, Repr

/-- Subscription of a plain Python list.  An in-range integer returns the
element and an out-of-range one raises `IndexError` (negative-from-the-end
indexing is unused here).  A numpy boolean array is not an integer: CPython
asks the array for `__index__`, which raises `TypeError` unless the array
has exactly one element, in which case it converts to that element's
integer value (True = 1, False = 0). -/
def pyListSubscript (l : List Char) : PySubscript → Except String Char
  | .intIdx i =>
      if i < 0 then Except.error "IndexError"
      else
        match l.get? i.toNat with
        | some ch => Except.ok ch
        | none => Except.error "IndexError"
  | .boolMask m =>
      if m.length = 1 then
        match l.get? (if m.getD 0 false then 1 else 0) with
        | some ch => Except.ok ch
        | none => Except.error "IndexError"
      else Except.error "TypeError: only integer scalar arrays can be converted to a scalar index"

/-- Embedding of the warm-path variable-type delta (lines 228-234): read
back the column types, compare elementwise with the cached type array
(`vti` is a numpy boolean mask), and if any entry differs evaluate
`vartype [vti]` — `vartype` being a plain Python list — before the batched
`chgcoltype` call; when no entry differs nothing is applied.  In the
(unreachable without an exception) case where the mask subscription
returns a character, the batched change pairs the masked indices with it. -/
def warmVartypeStep (vartype vartype0 : List Char) : Except String (List (Nat × Char)) :=
  let vti := List.zipWith (fun a b => decide (a ≠ b)) vartype vartype0
  if vti.any id then
    match pyListSubscript vartype (.boolMask vti) with
    | Except.error e => Except.error e
    | Except.ok ch =>
        Except.ok (((List.range vartype.length).filter
          (fun i => vti.getD i false)).map (fun i => (i, ch)))
  else Except.ok []

/-- The incremental changes the warm-start path applies to the reused
instance (lines 205-234). -/
structure WarmChanges where
  chgobj : List Nat
  chgmcoef : List (Nat × Nat)
  chgrhs : List Nat
  chgcoltype : List (Nat × Char)
  deriving DecidableEq, Repr

/-- Embedding of the warm-start path (lines 197-234): reuse the cached
instance; when the objective carries a symbolic parameter apply the sparse
objective delta `dci`; when any constraint does, apply the matrix delta
`dAi` and rhs delta `dbi` (computed on the linear rows `A = data[s.A][:nrows]`,
`b = data[s.B][:nrows]` against the cached full matrices); then read back
the column types and run the type-delta step, which can raise. -/
def warmStartStep (d : ProbData) (p : PrevResult) : Except String WarmChanges :=
  let A := d.A.take d.nrowsLin
  let b := d.b.take d.nrowsLin
  let dci := if d.objHasParams then diffIdx d.c p.obj else []
  let dAi := if d.conHasParams then diffCoords A p.mat else []
  let dbi := if d.conHasParams then diffIdx b p.rhs else []
  let vartype := getcoltype p.problem d.c.length
  match warmVartypeStep vartype p.vartype with
  | Except.error e => Except.error e
  | Except.ok chg => Except.ok { chgobj := dci, chgmcoef := dAi, chgrhs := dbi, chgcoltype := chg }

/-! ## ColdLoader column types (xpress_intf.py lines 249-265) -/

/-- Batched `chgcoltype` on a column-type array: set each listed index to
the paired type character. -/
def chgcoltypeList (ct : List Char) (idxs : List Nat) (types : List Char) : List Char :=
  (List.zip idxs types).foldl (fun acc t => acc.set t.1 t.2) ct

/-- Column types after the cold `loadproblem` (all continuous) and the
`chgcoltype` call of lines 264-265 marking boolean and integer columns. -/
def markColtypes (n : Nat) (boolIdx intIdx : List Nat) : List Char :=
  chgcoltypeList (List.replicate n 'C') (boolIdx ++ intIdx)
    (List.replicate boolIdx.length 'B' ++ List.replicate intIdx.length 'I')

/-- The instance the cold loader builds, as far as this layer observes it:
a fresh handle and the column types — the `n` original columns marked by
index set, plus (in cone mode A) one continuous auxiliary column per cone
row; cone mode B (`translate_back_QP_`) adds no variables. -/
def coldInstance (d : ProbData) (translateBack : Bool) (freshHandle : Nat) : XpressProb :=
  { handle := freshHandle
  , coltypes := markColtypes d.c.length d.boolIdx d.intIdx ++
      (if translateBack then [] else List.replicate d.socDim.sum 'C') }

/-! ## ResultExtractor (xpress_intf.py lines 386-409 and 411-470) -/

/-- Fields of the `results_dict` built by `XPRESS.solve` (lines 386-408):
the instance, the native status from `getProbStatus`, the objective value,
and the optional entries — `none` models an absent key, whose read raises
`KeyError`. -/
structure ResultsDict where
  problem : XpressProb
  status : PyVal
  obj_value : ℚ
  x : Option (List ℚ)
  y : Option (List ℚ)
  iis : Option PyVal
  deriving DecidableEq, Repr

/-- Embedding of lines 386-408: build `results_dict`, translate the native
status through the applicable table (a missing key raises), read the primal
(and, for continuous problems, the dual) when the translated status is in
`SOLUTION_PRESENT` and set the IIS entry to `None`; set the IIS entry to
`1` when the translated status is `INFEASIBLE`; otherwise write no IIS
entry at all. -/
def buildResultsDict (inst : XpressProb) (native : PyVal) (objval : ℚ)
    (primal dual : List ℚ) (isMip : Bool) : Except String ResultsDict :=
  match dictGet (applicableTable isMip) native with
  | Except.error e => Except.error e
  | Except.ok status =>
      if status ∈ SOLUTION_PRESENT then
        Except.ok { problem := inst, status := native, obj_value := objval,
                    x := some primal,
                    y := if isMip then none else some dual,
                    iis := some PyVal.pynone }
      else if status = INFEASIBLE then
        Except.ok { problem := inst, status := native, obj_value := objval,
                    x := none, y := none, iis := some (PyVal.int 1) }
      else
        Except.ok { problem := inst, status := native, obj_value := objval,
                    x := none, y := none, iis := none }

/-- The standard-form result record `format_results` returns. -/
structure NewResults where
  status : PyVal
  primal : Option (List ℚ)
  value : Option ℚ
  eq_dual : Option (List ℚ)
  iis : Option PyVal
  deriving DecidableEq, Repr

/-- The cache entry `format_results` writes (lines 441-453): the current
instance handle, the exact `c`, `A`, `b`, cone-size sequence, and the
freshly read-back variable types of columns `0 .. len(c)-1`. -/
def freshCacheEntry (inst : XpressProb) (d : ProbData) : PrevResult :=
  { problem := inst, obj := d.c, mat := d.A, rhs := d.b,
    cone_ind := d.socDim, vartype := getcoltype inst d.c.length }

/-- Embedding of `XPRESS.format_results` (lines 411-470).  The cache guard
compares `results_dict["status"]` — the native integer code — with the
canonical string constant `s.SOLVER_ERROR`, exactly as the source does;
then the native status is translated through the applicable table, the
solution fields are copied for solution-present statuses, and finally
`new_results[s.IIS] = results_dict[s.IIS]` reads the IIS entry, raising
`KeyError` when the entry was never written.  Returns the new cache entry
state together with the result (the cache write happens before any of the
later reads can raise). -/
def format_results (rd : ResultsDict) (d : ProbData) (cache0 : Option PrevResult) :
    Option PrevResult × Except String NewResults :=
  let cache1 := if rd.status ≠ SOLVER_ERROR then some (freshCacheEntry rd.problem d) else cache0
  match dictGet (applicableTable (isMipProblem d.boolIdx d.intIdx)) rd.status with
  | Except.error e => (cache1, Except.error e)
  | Except.ok canon =>
      if canon ∈ SOLUTION_PRESENT then
        match rd.x with
        | none => (cache1, Except.error "KeyError: x")
        | some xs =>
            if isMipProblem d.boolIdx d.intIdx then
              match rd.iis with
              | none => (cache1, Except.error "KeyError: iis")
              | some iv =>
                  (cache1, Except.ok ⟨canon, some xs, some rd.obj_value, none, some iv⟩)
            else
              match rd.y with
              | none => (cache1, Except.error "KeyError: y")
              | some ys =>
                  match rd.iis with
                  | none => (cache1, Except.error "KeyError: iis")
                  | some iv =>
                      (cache1, Except.ok ⟨canon, some xs, some rd.obj_value, some ys, some iv⟩)
      else
        match rd.iis with
        | none => (cache1, Except.error "KeyError: iis")
        | some iv =>
            (cache1, Except.ok ⟨canon, none, none, none, some iv⟩)

/-! ## The solve driver (xpress_intf.py lines 126-409) -/

/-- Observable outcome of one `XPRESS.solve` call: the logging controls as
set by lines 369-376 (`none` when an exception fired before that block),
the cache entry after the call, and the returned record or the exception. -/
structure SolveOutcome where
  controls : Option (Nat × Nat × Nat)
  cache : Option PrevResult
  result : Except String NewResults
  deriving Repr

/-- Tail of `XPRESS.solve` after the load-or-diff branch (lines 359-409):
set the logging controls `(miplog, lplog, outputlog)`, solve (the external
optimizer is the oracle providing `native`, `objval`, `primal`, `dual`),
build `results_dict` and hand it to `format_results`. -/
def solveTail (d : ProbData) (cache0 : Option PrevResult) (verbose : Bool)
    (inst : XpressProb) (native : PyVal) (objval : ℚ) (primal dual : List ℚ) :
    SolveOutcome :=
  let controls := if verbose then (2, 1, 1) else (0, 0, 0)
  match buildResultsDict inst native objval primal dual (isMipProblem d.boolIdx d.intIdx) with
  | Except.error e => { controls := some controls, cache := cache0, result := Except.error e }
  | Except.ok rd =>
      let fr := format_results rd d cache0
      { controls := some controls, cache := fr.1, result := fr.2 }

/-- Embedding of `XPRESS.solve` (lines 126-409).  Line 152 overwrites the
`verbose` argument with `True` before it is ever read.  The warm-start
path is taken exactly under `warmStartEligible`; its type-delta step can
raise, in which case the call fails before the logging block.  Otherwise
the cold loader builds a fresh instance (its matrix loading and cone
transformation are embedded separately as `makeMstart`, `coneModeA` and
`coneModeB`; the driver records what the later phases observe). -/
def XPRESS_solve (d : ProbData) (cache0 : Option PrevResult)
    (warm_start verbose translateBack : Bool) (freshHandle : Nat)
    (native : PyVal) (objval : ℚ) (primal dual : List ℚ) : SolveOutcome :=
  let verbose := true
  match cache0, warmStartEligible warm_start cache0 d.c.length d.nrowsLin d.socDim with
  | some p, true =>
      (match warmStartStep d p with
       | Except.error e => { controls := none, cache := cache0, result := Except.error e }
       | Except.ok _ => solveTail d cache0 verbose p.problem native objval primal dual)
  | _, _ =>
      solveTail d cache0 verbose (coldInstance d translateBack freshHandle)
        native objval primal dual

/-! ## ConeTransformer mode A (xpress_intf.py lines 329-352) -/

/-- One quadratic constraint over the auxiliary cone variables of a block:
the sum of squares of the variables at relative indices `lhsIdx` is at most
the square of the variable at relative index `rhsIdx`. -/
structure ConeAQuad where
  lhsIdx : List Nat
  rhsIdx : Nat
  deriving DecidableEq, Repr

/-- Additions cone mode A makes for one cone block of size `k` starting at
solver row `initrow`: the lower bounds of the `k` new cone variables
(`none` is `-xpress.infinity`), the `k` added equality rows with their rhs,
the `chgmcoef` unit ties `(initrow + i, conevar i, 1)`, and the quadratic
constraints added for this block. -/
structure ConeAAdds where
  varLbs : List (Option ℚ)
  rowTypes : List Char
  rowRhs : List ℚ
  tieCoefs : List (Nat × Nat × ℚ)
  quad : List ConeAQuad
  deriving DecidableEq, Repr

/-- Embedding of the mode-A (auxiliary variables) cone transformation
(lines 329-352): `k` new variables with `lb = -infinity if i > 0 else 0`,
`k` new equality rows loaded from the cone block, a unit coefficient tying
each cone variable to its row, and — only when `k > 1` — one quadratic
constraint `Sum (conevar[i]^2, i in 1..k-1) <= conevar[0]^2`. -/
def coneModeA (k : Nat) (bblock : List ℚ) (initrow : Nat) : ConeAAdds :=
  { varLbs := (List.range k).map (fun i => if 0 < i then none else some 0)
  , rowTypes := List.replicate k 'E'
  , rowRhs := bblock
  , tieCoefs := (List.range k).map (fun i => (initrow + i, i, (1 : ℚ)))
  , quad := if 1 < k then [{ lhsIdx := (List.range k).drop 1, rhsIdx := 0 }] else [] }

/-! ## ConeTransformer mode B (xpress_intf.py lines 286-325) -/

/-- Symbolic scalar linear expression as the mode-B loop accumulates it: a
constant plus coefficient-times-variable terms, each `-=` appending one
negated term. -/
structure LinExpr where
  const : ℚ
  terms : List (Nat × ℚ)
  deriving DecidableEq, Repr

/-- Value of a symbolic linear expression at a variable assignment. -/
def LinExpr.eval (e : LinExpr) (x : Nat → ℚ) : ℚ :=
  e.const + (e.terms.map (fun t => t.2 * x t.1)).sum

/-- The update `e -= coef * x[col]`. -/
def LinExpr.subTerm (e : LinExpr) (col : Nat) (coef : ℚ) : LinExpr :=
  { const := e.const, terms := e.terms ++ [(col, -coef)] }

/-- Nonzero entries `(column, coefficient)` of one dense row, in column
order (what `.nonzero ()` paired with `.data` yields for that row). -/
def rowNonzeros (row : List ℚ) : List (Nat × ℚ) :=
  (List.range row.length).filterMap
    (fun j => if row.getD j 0 ≠ 0 then some (j, row.getD j 0) else none)

/-- Nonzero entries `(row, column, coefficient)` of a dense matrix in
row-major order (what `.nonzero ()` paired with `.data` yields for a CSR
matrix, lines 310-314). -/
def matNonzeros (M : List (List ℚ)) : List (Nat × Nat × ℚ) :=
  (List.range M.length).flatMap
    (fun i => (rowNonzeros (M.getD i [])).map (fun t => (i, t.1, t.2)))

/-- One quadratic constraint of mode B: the sum of squares of the `lhs`
expressions is at most the square of the `rhs` expression
(`xpress.Sum ([lhs[i]**2 ...]) <= rhs**2`, line 325). -/
structure ConeBQuad where
  lhs : List LinExpr
  rhs : LinExpr
  deriving DecidableEq, Repr

/-- Additions cone mode B makes for one cone block: its quadratic
constraints and the counts of auxiliary variables and rows introduced. -/
structure ConeBAdds where
  quad : List ConeBQuad
  addedVars : Nat
  addedRows : Nat
  deriving DecidableEq, Repr

/-- Embedding of the mode-B (back-substitution) cone transformation (lines
286-325) on the cone block rows `Ablock` and rhs `bblock`: `Plhs` is the
leg rows `Ablock[1:]` and `Prhs` the apex row `Ablock[0]`; `lhs` starts as
`list (b[1:])` and each nonzero `(r, c, coef)` of `Plhs` performs
`lhs[r] -= coef * x[c]` (the default expression of the out-of-range `getD`
is never used: every nonzero row index is below `len (lhs)`); `rhs` starts
as `b[0]` and each nonzero of `Prhs` subtracts its term; one quadratic
constraint is added and no variables or rows. -/
def coneModeB (Ablock : List (List ℚ)) (bblock : List ℚ) : ConeBAdds :=
  let Plhs := Ablock.drop 1
  let lhs0 : List LinExpr := (bblock.drop 1).map (fun bi => { const := bi, terms := [] })
  let lhs := (matNonzeros Plhs).foldl
      (fun acc t => acc.set t.1 ((acc.getD t.1 { const := 0, terms := [] }).subTerm t.2.1 t.2.2))
      lhs0
  let rhs := (rowNonzeros (Ablock.getD 0 [])).foldl
      (fun acc t => acc.subTerm t.1 t.2)
      { const := bblock.getD 0 0, terms := [] }
  { quad := [{ lhs := lhs, rhs := rhs }], addedVars := 0, addedRows := 0 }

/-- Dot product of a dense row with a variable assignment. -/
def dotRow (row : List ℚ) (x : Nat → ℚ) : ℚ :=
  ((List.range row.length).map (fun j => row.getD j 0 * x j)).sum

/-! ## Concrete sample data used by the closed theorems -/

/-- Sample continuous problem (one variable, one equality row, no cones). -/
def dSample : ProbData :=
  { c := [1], A := [[1]], b := [1], eqDim := 1, leqDim := 0, socDim := [],
    boolIdx := [], intIdx := [], objHasParams := false, conHasParams := false }

/-- Sample instance handle with one continuous column. -/
def instSample : XpressProb := { handle := 7, coltypes := ['C'] }

/-- Sample prior cache entry, distinct from the refresh of `dSample`. -/
def priorSample : PrevResult :=
  { problem := { handle := 3, coltypes := ['C'] }, obj := [2], mat := [[1]],
    rhs := [1], cone_ind := [], vartype := ['C'] }

/-- Sample `results_dict` with native status `lp_unstarted` (an integer),
as built when the LP solve did not start: no solution fields, no IIS entry. -/
def rdUnstarted : ResultsDict :=
  { problem := instSample, status := lp_unstarted, obj_value := 0,
    x := none, y := none, iis := none }

/-- Sample cache entry whose cached variable type differs from the type
read back from the instance. -/
def priorTypeDiff : PrevResult :=
  { problem := { handle := 3, coltypes := ['C'] }, obj := [1], mat := [[1]],
    rhs := [1], cone_ind := [], vartype := ['I'] }

/-! # Theorems -/

/-! ## Lemmas on `cumsum`, `bincount` and counting -/

theorem cumsum_length (l : List Nat) (acc : Nat) : (cumsum l acc).length = l.length := by
  induction l generalizing acc with
  | nil => rfl
  | cons x xs ih => simp [cumsum, ih]

theorem cumsum_chain (l : List Nat) (acc : Nat) :
    List.Chain (· ≤ ·) acc (cumsum l acc) := by
  induction l generalizing acc with
  | nil => exact List.Chain.nil
  | cons x xs ih => exact List.Chain.cons (Nat.le_add_right acc x) (ih (acc + x))

theorem cumsum_getLast (l : List Nat) (acc x : Nat) :
    (cumsum (x :: l) acc).getLast? = some (acc + (x :: l).sum) := by
  induction l generalizing acc x with
  | nil => simp [cumsum]
  | cons y ys ih =>
      show ((acc + x) :: cumsum (y :: ys) (acc + x)).getLast? = _
      rw [show cumsum (y :: ys) (acc + x) = (acc + x + y) :: cumsum ys (acc + x + y) from rfl,
          List.getLast?_cons_cons,
          show (acc + x + y) :: cumsum ys (acc + x + y) = cumsum (y :: ys) (acc + x) from rfl,
          ih]
      simp [List.sum_cons]
      ring

theorem bcLen_le (nl : List Nat) (m : Nat) (h : ∀ x ∈ nl, x < m) : bcLen nl ≤ m := by
  induction nl with
  | nil => exact Nat.zero_le m
  | cons x xs ih =>
      have hx : x < m := h x (List.mem_cons_self x xs)
      have hxs : bcLen xs ≤ m := ih (fun y hy => h y (List.mem_cons_of_mem x hy))
      exact max_le hx hxs

theorem lt_bcLen (nl : List Nat) (x : Nat) (h : x ∈ nl) : x < bcLen nl := by
  induction nl with
  | nil => cases h
  | cons y ys ih =>
      rcases List.mem_cons.mp h with h | h
      · subst h
        exact lt_of_lt_of_le (Nat.lt_succ_self x) (le_max_left (x + 1) (bcLen ys))
      · exact lt_of_lt_of_le (ih h) (le_max_right (y + 1) (bcLen ys))

theorem sum_map_range {M : Type} [AddCommMonoid M] (m : Nat) (f : Nat → M) :
    ((List.range m).map f).sum = ∑ i ∈ Finset.range m, f i := rfl

theorem sum_range_count (nl : List Nat) (m : Nat) (h : ∀ x ∈ nl, x < m) :
    ((List.range m).map (fun i => nl.count i)).sum = nl.length := by
  rw [sum_map_range]
  induction nl with
  | nil => simp
  | cons x xs ih =>
      have hx : x < m := h x (List.mem_cons_self x xs)
      have hxs := ih (fun y hy => h y (List.mem_cons_of_mem x hy))
      calc ∑ i ∈ Finset.range m, (x :: xs).count i
          = ∑ i ∈ Finset.range m, (xs.count i + if x = i then 1 else 0) := by
            refine Finset.sum_congr rfl (fun i _ => ?_)
            simp [List.count_cons, beq_iff_eq]
        _ = (∑ i ∈ Finset.range m, xs.count i)
              + ∑ i ∈ Finset.range m, (if x = i then 1 else 0) := Finset.sum_add_distrib
        _ = xs.length + 1 := by
            rw [hxs, Finset.sum_ite_eq (Finset.range m) x (fun _ => 1)]
            simp [Finset.mem_range.mpr hx]
        _ = (x :: xs).length := by simp [Nat.add_comm]

theorem bincount_ok (coords : List Int) (hpos : ∀ x ∈ coords, 0 ≤ x) :
    bincount coords = Except.ok ((List.range (bcLen (coords.map Int.toNat))).map
      (fun i => (coords.map Int.toNat).count i)) := by
  unfold bincount
  rw [if_neg]
  intro hany
  rcases List.any_eq_true.mp hany with ⟨x, hx, hneg⟩
  exact absurd (hpos x hx) (by simpa using of_decide_eq_true hneg)

/-! ## C5 -/

/-- C5: for every nonzero-coordinate array (entries in `[0, n)`) and target
length `n`, `makeMstart` succeeds with a sequence of length `n + 1` that is
non-decreasing and whose last entry is the total number of nonzero
coordinates (the quantification covers empty and unsorted coordinate
arrays); an array with a negative coordinate fails with the `InvalidInput`
error. -/
theorem C5_makeMstart_correct (coords : List Int) (n : Nat)
    (hrange : ∀ x ∈ coords, 0 ≤ x ∧ x < (n : Int)) :
    (∃ ms, makeMstart coords n = Except.ok ms ∧
      ms.length = n + 1 ∧
      List.Sorted (· ≤ ·) ms ∧
      ms.getLast? = some coords.length) ∧
    (∀ bad : List Int, (∃ x ∈ bad, x < 0) →
      makeMstart bad n = Except.error "InvalidInput") := by
  constructor
  · set nl : List Nat := coords.map Int.toNat with hnl
    have hlt : ∀ x ∈ nl, x < n := by
      intro x hx
      rcases List.mem_map.mp hx with ⟨y, hy, rfl⟩
      rcases hrange y hy with ⟨h0, h1⟩
      omega
    set cnt : List Nat := (List.range (bcLen nl)).map (fun i => nl.count i) with hcnt
    have hcl : cnt.length = bcLen nl := by simp [hcnt]
    have hle : cnt.length ≤ n := hcl ▸ bcLen_le nl n hlt
    have hbc : bincount coords = Except.ok cnt :=
      bincount_ok coords (fun x hx => (hrange x hx).1)
    refine ⟨cumsum ([0] ++ cnt ++ List.replicate (n - cnt.length) 0) 0,
      by rw [makeMstart, hbc], ?_, ?_, ?_⟩
    · rw [cumsum_length]
      simp only [List.length_append, List.length_replicate, List.length_cons,
        List.length_nil]
      omega
    · have hchain : List.Chain' (· ≤ ·)
          (cumsum ([0] ++ cnt ++ List.replicate (n - cnt.length) 0) 0) := by
        show List.Chain' (· ≤ ·)
          (cumsum (0 :: (cnt ++ List.replicate (n - cnt.length) 0)) 0)
        show List.Chain' (· ≤ ·)
          ((0 + 0) :: cumsum (cnt ++ List.replicate (n - cnt.length) 0) (0 + 0))
        exact cumsum_chain (cnt ++ List.replicate (n - cnt.length) 0) (0 + 0)
      exact List.chain'_iff_pairwise.mp hchain
    · show (cumsum (0 :: (cnt ++ List.replicate (n - cnt.length) 0)) 0).getLast? = _
      rw [cumsum_getLast]
      have hsum : cnt.sum = nl.length := by
        rw [hcnt]
        exact sum_range_count nl (bcLen nl) (fun x hx => lt_bcLen nl x hx)
      have : nl.length = coords.length := by simp [hnl]
      simp [List.sum_append, List.sum_replicate, hsum, this]
  · intro bad hbad
    rcases hbad with ⟨x, hx, hneg⟩
    rw [makeMstart, bincount, if_pos]
    exact List.any_eq_true.mpr ⟨x, hx, decide_eq_true hneg⟩

/-- Witness for C5 at the concrete unsorted coordinate array
`[0, 2, 1, 2]` with `n = 4`. -/
theorem C5_makeMstart_correct_witness :
    (∀ x ∈ ([0, 2, 1, 2] : List Int), 0 ≤ x ∧ x < (4 : Int)) ∧
    ((∃ ms, makeMstart [0, 2, 1, 2] 4 = Except.ok ms ∧
      ms.length = 4 + 1 ∧
      List.Sorted (· ≤ ·) ms ∧
      ms.getLast? = some ([0, 2, 1, 2] : List Int).length) ∧
    (∀ bad : List Int, (∃ x ∈ bad, x < 0) →
      makeMstart bad 4 = Except.error "InvalidInput")) :=
  ⟨by decide, C5_makeMstart_correct [0, 2, 1, 2] 4 (by decide)⟩

/-! ## C4 -/

theorem dictGet_unique {d : List (PyVal × PyVal)} {k v v' : PyVal}
    (h2 : dictGet d k = Except.ok v') (h1 : dictGet d k = Except.ok v) : v' = v := by
  rw [h1] at h2
  exact (Except.ok.inj h2).symm

theorem lookup_eq_none_of_not_mem {d : List (PyVal × PyVal)} {k : PyVal}
    (h : k ∉ dictKeys d) : d.lookup k = none := by
  induction d with
  | nil => rfl
  | cons p d ih =>
      simp only [dictKeys, List.map_cons, List.mem_cons] at h
      push_neg at h
      have hk : (k == p.1) = false := beq_eq_false_iff_ne.mpr h.1
      simp [List.lookup, hk, ih h.2]

theorem dictGet_error_of_not_mem {d : List (PyVal × PyVal)} {k : PyVal}
    (h : k ∉ dictKeys d) : dictGet d k = Except.error "KeyError: UnknownStatus" := by
  rw [dictGet, lookup_eq_none_of_not_mem h]

/-- C4: status translation is total over the native status domain — for
every native status code reachable from a solve, the applicable lookup
table (MIP table for mixed-integer problems, LP table otherwise) maps it
to exactly one of the four canonical statuses; a native code absent from
the applicable table raises a `KeyError` (the spec's `UnknownStatus`)
instead of being silently mapped to a default. -/
theorem C4_status_translation_total :
    (∀ isMip : Bool, ∀ code ∈ nativeStatusDomain isMip,
      ∃ canon, dictGet (applicableTable isMip) code = Except.ok canon ∧
        canon ∈ canonicalStatuses ∧
        ∀ canon', dictGet (applicableTable isMip) code = Except.ok canon' →
          canon' = canon) ∧
    (∀ isMip : Bool, ∀ code, code ∉ dictKeys (applicableTable isMip) →
      dictGet (applicableTable isMip) code = Except.error "KeyError: UnknownStatus") := by
  constructor
  · intro isMip code hc
    cases isMip with
    | false =>
        fin_cases hc <;>
          exact ⟨_, rfl, by decide, fun c' h => dictGet_unique h rfl⟩
    | true =>
        fin_cases hc <;>
          exact ⟨_, rfl, by decide, fun c' h => dictGet_unique h rfl⟩
  · intro isMip code hc
    exact dictGet_error_of_not_mem hc

/-- Witness for C4 at the LP code `lp_unstarted` and the absent code `99`. -/
theorem C4_status_translation_total_witness :
    (lp_unstarted ∈ nativeStatusDomain false ∧
      ∃ canon, dictGet (applicableTable false) lp_unstarted = Except.ok canon ∧
        canon ∈ canonicalStatuses ∧
        ∀ canon', dictGet (applicableTable false) lp_unstarted = Except.ok canon' →
          canon' = canon) ∧
    (PyVal.int 99 ∉ dictKeys (applicableTable false) ∧
      dictGet (applicableTable false) (PyVal.int 99) =
        Except.error "KeyError: UnknownStatus") :=
  ⟨⟨by decide, C4_status_translation_total.1 false lp_unstarted (by decide)⟩,
   ⟨by decide, C4_status_translation_total.2 false (PyVal.int 99) (by decide)⟩⟩

/-! ## C3 -/

/-- C3: the warm-start (incremental-update) path is taken exactly when warm
start was requested, a cache entry exists, the variable count matches the
cached objective length, the linear row count matches the cached rhs
length, and the cone-size sequence equals the cached one element for
element; when any condition fails the cold from-scratch load is taken. -/
theorem C3_warm_start_eligibility (d : ProbData) (cache : Option PrevResult) (ws : Bool) :
    solveLoadPath d cache ws = true ↔
      (ws = true ∧ ∃ p, cache = some p ∧
        d.c.length = p.obj.length ∧
        d.nrowsLin = p.rhs.length ∧
        d.socDim = p.cone_ind) := by
  unfold solveLoadPath warmStartEligible
  cases cache with
  | none => simp
  | some p => simp [and_assoc]

/-! ## Lemmas on the warm-start deltas -/

theorem diffIdx_self (u : List ℚ) : diffIdx u u = [] := by
  unfold diffIdx
  exact List.filter_eq_nil_iff.mpr (fun a _ => by simp)

theorem diffCoords_self (M : List (List ℚ)) : diffCoords M M = [] := by
  unfold diffCoords
  rw [List.flatMap_eq_nil_iff]
  intro i _
  rw [List.map_eq_nil_iff]
  exact List.filter_eq_nil_iff.mpr (fun a _ => by simp)

theorem zipWith_ne_self_any (l : List Char) :
    (List.zipWith (fun a b => decide (a ≠ b)) l l).any id = false := by
  induction l with
  | nil => rfl
  | cons a l ih => simp [List.zipWith, ih]

theorem warmVartypeStep_self (l : List Char) : warmVartypeStep l l = Except.ok [] := by
  unfold warmVartypeStep
  rw [if_neg]
  intro h
  rw [zipWith_ne_self_any] at h
  exact Bool.false_ne_true h

theorem zipWith_ne_any_of_ne (vt vt0 : List Char) (hlen : vt.length = vt0.length)
    (hne : vt ≠ vt0) :
    (List.zipWith (fun a b => decide (a ≠ b)) vt vt0).any id = true := by
  induction vt generalizing vt0 with
  | nil =>
      cases vt0 with
      | nil => exact absurd rfl hne
      | cons b l2 => cases hlen
  | cons a l ih =>
      cases vt0 with
      | nil => cases hlen
      | cons b l2 =>
          rw [List.zipWith_cons_cons, List.any_cons]
          by_cases hab : a = b
          · subst hab
            have hl : l ≠ l2 := fun h => hne (by rw [h])
            have hlen' : l.length = l2.length := by simpa using hlen
            rw [ih l2 hlen' hl]
            simp
          · have : decide (a ≠ b) = true := decide_eq_true hab
            rw [this]
            simp

theorem pyListSubscript_boolMask_error (l : List Char) (m : List Bool)
    (hlen : m.length = l.length) (hany : m.any id = true) :
    ∃ e, pyListSubscript l (.boolMask m) = Except.error e := by
  simp only [pyListSubscript]
  by_cases h1 : m.length = 1
  · rw [if_pos h1]
    rcases List.length_eq_one.mp h1 with ⟨x, hx⟩
    have hxt : x = true := by simpa [hx] using hany
    have hl1 : l.length = 1 := by omega
    rw [hx, hxt]
    have hnone : l.get? 1 = none := List.get?_eq_none.mpr (by omega)
    have hidx : (if (([true] : List Bool).getD 0 false) = true then 1 else 0) = 1 := rfl
    rw [hidx, hnone]
    exact ⟨_, rfl⟩
  · rw [if_neg h1]
    exact ⟨_, rfl⟩

/-- Unfolding of `warmStartStep` through its let bindings. -/
theorem warmStartStep_eq (d : ProbData) (p : PrevResult) :
    warmStartStep d p =
      match warmVartypeStep (getcoltype p.problem d.c.length) p.vartype with
      | Except.error e => Except.error e
      | Except.ok chg =>
          Except.ok { chgobj := if d.objHasParams then diffIdx d.c p.obj else []
                    , chgmcoef := if d.conHasParams then diffCoords (d.A.take d.nrowsLin) p.mat else []
                    , chgrhs := if d.conHasParams then diffIdx (d.b.take d.nrowsLin) p.rhs else []
                    , chgcoltype := chg } := rfl

/-- Unfolding of `warmVartypeStep` through its let binding. -/
theorem warmVartypeStep_eq (vartype vartype0 : List Char) :
    warmVartypeStep vartype vartype0 =
      (if (List.zipWith (fun a b => decide (a ≠ b)) vartype vartype0).any id then
        match pyListSubscript vartype
            (.boolMask (List.zipWith (fun a b => decide (a ≠ b)) vartype vartype0)) with
        | Except.error e => Except.error e
        | Except.ok ch =>
            Except.ok (((List.range vartype.length).filter
              (fun i => (List.zipWith (fun a b => decide (a ≠ b)) vartype vartype0).getD i false)).map
              (fun i => (i, ch)))
      else Except.ok []) := rfl

/-! ## C10 -/

/-- C10: in the warm-start path, whenever at least one read-back variable
type differs from the cached type array, the batched type-change step
evaluates `vartype [vti]` — a plain Python list subscripted by a numpy
boolean mask — and raises instead of applying the change, so the whole
warm solve fails; the branch completes (applying nothing) exactly under
the precondition that every variable type is unchanged. -/
theorem C10_vartype_mask_raises (d : ProbData) (p : PrevResult)
    (hlen : (getcoltype p.problem d.c.length).length = p.vartype.length) :
    (getcoltype p.problem d.c.length ≠ p.vartype →
      ∃ e, warmStartStep d p = Except.error e) ∧
    (getcoltype p.problem d.c.length = p.vartype →
      ∃ wc, warmStartStep d p = Except.ok wc ∧ wc.chgcoltype = []) := by
  constructor
  · intro hne
    have hany := zipWith_ne_any_of_ne (getcoltype p.problem d.c.length) p.vartype hlen hne
    have hmlen : (List.zipWith (fun a b => decide (a ≠ b))
        (getcoltype p.problem d.c.length) p.vartype).length =
        (getcoltype p.problem d.c.length).length := by
      rw [List.length_zipWith]
      omega
    rcases pyListSubscript_boolMask_error (getcoltype p.problem d.c.length) _ hmlen hany
      with ⟨e, he⟩
    refine ⟨e, ?_⟩
    rw [warmStartStep_eq, warmVartypeStep_eq, if_pos hany, he]
  · intro heq
    refine ⟨{ chgobj := if d.objHasParams then diffIdx d.c p.obj else []
            , chgmcoef := if d.conHasParams then diffCoords (d.A.take d.nrowsLin) p.mat else []
            , chgrhs := if d.conHasParams then diffIdx (d.b.take d.nrowsLin) p.rhs else []
            , chgcoltype := [] }, ?_, rfl⟩
    rw [warmStartStep_eq, heq, warmVartypeStep_self]

/-- Witness for C10: cached type `I` differs from the read-back `C`, and
the step raises. -/
theorem C10_vartype_mask_raises_witness :
    ((getcoltype priorTypeDiff.problem dSample.c.length).length =
        priorTypeDiff.vartype.length ∧
      getcoltype priorTypeDiff.problem dSample.c.length ≠ priorTypeDiff.vartype) ∧
    ∃ e, warmStartStep dSample priorTypeDiff = Except.error e :=
  ⟨⟨by decide, by decide⟩,
   (C10_vartype_mask_raises dSample priorTypeDiff (by decide)).1 (by decide)⟩

/-! ## C1 -/

/-- C1: after a cold solve cached the exact problem data, a warm-start
re-solve of the identical (unchanged) problem computes empty diff index
sets throughout — no objective-coefficient change, no matrix-coefficient
change, no rhs change, and no variable-type change is applied to the
reused solver instance.  Hypotheses: the `CanonicalProblem` shape
invariant (the matrix has as many rows as the rhs) and the warm path being
taken (eligibility of the unchanged problem). -/
theorem C1_roundtrip_no_changes (d : ProbData) (inst : XpressProb)
    (hAb : d.A.length = d.b.length)
    (helig : warmStartEligible true (some (freshCacheEntry inst d))
      d.c.length d.nrowsLin d.socDim = true) :
    warmStartStep d (freshCacheEntry inst d) =
      Except.ok { chgobj := [], chgmcoef := [], chgrhs := [], chgcoltype := [] } := by
  have hrows : d.nrowsLin = d.b.length := by
    have h := helig
    simp only [warmStartEligible, Bool.true_and, Bool.and_eq_true, decide_eq_true_eq,
      freshCacheEntry] at h
    exact h.1.2
  have htakeA : d.A.take d.nrowsLin = d.A := by
    have hA : d.nrowsLin = d.A.length := by omega
    rw [hA, List.take_length]
  have htakeB : d.b.take d.nrowsLin = d.b := by
    rw [hrows, List.take_length]
  rw [warmStartStep_eq,
    show getcoltype (freshCacheEntry inst d).problem d.c.length =
      (freshCacheEntry inst d).vartype from rfl,
    warmVartypeStep_self]
  simp only [freshCacheEntry, htakeA, htakeB, diffIdx_self, diffCoords_self, ite_self]

/-- Witness for C1: the sample problem, cold-cached and re-solved warm. -/
theorem C1_roundtrip_no_changes_witness :
    (dSample.A.length = dSample.b.length ∧
      warmStartEligible true (some (freshCacheEntry instSample dSample))
        dSample.c.length dSample.nrowsLin dSample.socDim = true) ∧
    warmStartStep dSample (freshCacheEntry instSample dSample) =
      Except.ok { chgobj := [], chgmcoef := [], chgrhs := [], chgcoltype := [] } :=
  ⟨⟨by decide, by decide⟩,
   C1_roundtrip_no_changes dSample instSample (by decide) (by decide)⟩

/-! ## C2 -/

/-- C2 (evaluation at the failing input; the code contradicts the claim):
`format_results` guards the cache refresh with
`results_dict["status"] != s.SOLVER_ERROR`, but that entry holds the
native integer status code while `s.SOLVER_ERROR` is the canonical string
constant, so the guard can never fire.  At native status `lp_unstarted` —
whose translated canonical status is `SOLVER_ERROR` — the cache entry is
nevertheless replaced with the fresh entry for the current problem. -/
theorem C2_cache_refreshed_on_solver_error :
    dictGet (applicableTable (isMipProblem dSample.boolIdx dSample.intIdx))
        rdUnstarted.status = Except.ok SOLVER_ERROR ∧
    (format_results rdUnstarted dSample (some priorSample)).1 =
      some (freshCacheEntry instSample dSample) ∧
    (format_results rdUnstarted dSample (some priorSample)).1 ≠ some priorSample := by
  refine ⟨rfl, rfl, fun h => ?_⟩
  have h2 : freshCacheEntry instSample dSample = priorSample :=
    Option.some.inj ((rfl : (format_results rdUnstarted dSample (some priorSample)).1 =
      some (freshCacheEntry instSample dSample)).symm.trans h)
  have h3 := congrArg (fun p : PrevResult => p.problem.handle) h2
  exact absurd h3 (by decide)

/-! ## C6 -/

/-- C6 (evaluation at the failing input; the code contradicts the claim):
for translated status `UNBOUNDED` the solve sets no IIS entry at all, and
`format_results` then raises `KeyError` reading `results_dict[s.IIS]`
instead of returning a record with the flag unset; for `INFEASIBLE` the
flag is set to 1 and a record is returned. -/
theorem C6_iis_keyerror_on_unbounded :
    buildResultsDict instSample lp_unbounded 0 [] [] false =
      Except.ok { problem := instSample, status := lp_unbounded, obj_value := 0,
                  x := none, y := none, iis := none } ∧
    dictGet (applicableTable false) lp_unbounded = Except.ok UNBOUNDED ∧
    (format_results
        { problem := instSample, status := lp_unbounded, obj_value := 0,
          x := none, y := none, iis := none }
        dSample (some priorSample)).2 = Except.error "KeyError: iis" ∧
    buildResultsDict instSample lp_infeas 0 [] [] false =
      Except.ok { problem := instSample, status := lp_infeas, obj_value := 0,
                  x := none, y := none, iis := some (PyVal.int 1) } ∧
    (format_results
        { problem := instSample, status := lp_infeas, obj_value := 0,
          x := none, y := none, iis := some (PyVal.int 1) }
        dSample (some priorSample)).2 =
      Except.ok { status := INFEASIBLE, primal := none, value := none,
                  eq_dual := none, iis := some (PyVal.int 1) } :=
  ⟨rfl, rfl, rfl, rfl, rfl⟩

/-! ## C9 -/

/-- C9: line 152 overwrites the `verbose` argument with `True` before it is
read, so every solve sets the logging controls to the verbose values
`(miplog, lplog, outputlog) = (2, 1, 1)` whenever the logging block is
reached, and two solve calls that differ only in the `verbose` argument
have identical outcomes. -/
theorem C9_verbose_always_true :
    (∀ (d : ProbData) (cache0 : Option PrevResult) (ws tb : Bool) (fh : Nat)
        (native : PyVal) (ov : ℚ) (pr du : List ℚ) (v1 v2 : Bool),
      XPRESS_solve d cache0 ws v1 tb fh native ov pr du =
        XPRESS_solve d cache0 ws v2 tb fh native ov pr du) ∧
    (∀ (d : ProbData) (cache0 : Option PrevResult) (ws v tb : Bool) (fh : Nat)
        (native : PyVal) (ov : ℚ) (pr du : List ℚ),
      (XPRESS_solve d cache0 ws v tb fh native ov pr du).controls = none ∨
      (XPRESS_solve d cache0 ws v tb fh native ov pr du).controls = some (2, 1, 1)) := by
  constructor
  · intro d cache0 ws tb fh native ov pr du v1 v2
    rfl
  · intro d cache0 ws v tb fh native ov pr du
    simp only [XPRESS_solve, solveTail]
    split
    · split
      · exact Or.inl rfl
      · split
        · exact Or.inr rfl
        · exact Or.inr rfl
    · split
      · exact Or.inr rfl
      · exact Or.inr rfl

/-! ## C7 -/

theorem range_map_getD {α : Type} (k i : Nat) (f : Nat → α) (d : α) (hi : i < k) :
    ((List.range k).map f).getD i d = f i := by
  simp [List.getD_eq_getElem?_getD, List.getElem?_range, hi]

/-- C7: cone mode A adds, for a block of size `k ≥ 1`, exactly `k` new
variables — the first lower-bounded at 0, the rest unbounded below — `k`
new equality rows with the block rhs and a unit coefficient tying the
`i`-th cone variable to row `initrow + i`; and it adds no quadratic
constraint when `k = 1` and exactly one, `Sum (y_i^2, i = 1..k-1) <= y_0^2`,
when `k > 1`. -/
theorem C7_coneModeA (k : Nat) (bblock : List ℚ) (initrow : Nat) (hk : 1 ≤ k) :
    ((coneModeA k bblock initrow).varLbs.length = k ∧
      (coneModeA k bblock initrow).varLbs.getD 0 none = some 0 ∧
      (∀ i, 0 < i → i < k → (coneModeA k bblock initrow).varLbs.getD i (some 0) = none)) ∧
    ((coneModeA k bblock initrow).rowTypes = List.replicate k 'E' ∧
      (coneModeA k bblock initrow).rowRhs = bblock ∧
      (coneModeA k bblock initrow).tieCoefs.length = k ∧
      (∀ i, i < k →
        (coneModeA k bblock initrow).tieCoefs.getD i (0, 0, 0) = (initrow + i, i, 1))) ∧
    (k = 1 → (coneModeA k bblock initrow).quad = []) ∧
    (1 < k → (coneModeA k bblock initrow).quad =
      [{ lhsIdx := List.range' 1 (k - 1), rhsIdx := 0 }]) := by
  refine ⟨⟨?_, ?_, ?_⟩, ⟨rfl, rfl, ?_, ?_⟩, ?_, ?_⟩
  · simp [coneModeA]
  · show ((List.range k).map (fun i => if 0 < i then none else some (0 : ℚ))).getD 0 none = _
    rw [range_map_getD k 0 _ _ hk]
    simp
  · intro i hi0 hik
    show ((List.range k).map (fun i => if 0 < i then none else some (0 : ℚ))).getD i
      (some 0) = _
    rw [range_map_getD k i _ _ hik, if_pos hi0]
  · simp [coneModeA]
  · intro i hik
    show ((List.range k).map (fun i => (initrow + i, i, (1 : ℚ)))).getD i (0, 0, 0) = _
    rw [range_map_getD k i _ _ hik]
  · intro h1
    subst h1
    rfl
  · intro hk2
    obtain ⟨m, rfl⟩ : ∃ m, k = m + 1 := ⟨k - 1, by omega⟩
    simp only [coneModeA, if_pos hk2]
    have hr : List.range (m + 1) = 0 :: List.range' 1 m := by
      rw [List.range_eq_range', List.range'_succ]
    rw [hr]
    simp

/-! ## Lemmas for cone mode B -/

theorem LinExpr.eval_subTerm (e : LinExpr) (c : Nat) (co : ℚ) (x : Nat → ℚ) :
    (e.subTerm c co).eval x = e.eval x - co * x c := by
  simp only [LinExpr.eval, LinExpr.subTerm, List.map_append, List.sum_append,
    List.map_cons, List.map_nil, List.sum_cons, List.sum_nil]
  ring

theorem eval_foldl_subTerm (ts : List (Nat × ℚ)) (e : LinExpr) (x : Nat → ℚ) :
    (ts.foldl (fun acc t => acc.subTerm t.1 t.2) e).eval x
      = e.eval x - (ts.map (fun t => t.2 * x t.1)).sum := by
  induction ts generalizing e with
  | nil => simp
  | cons t ts ih =>
      rw [List.foldl_cons, ih, LinExpr.eval_subTerm, List.map_cons, List.sum_cons]
      ring

theorem filterMap_nonzero_sum (row : List ℚ) (x : Nat → ℚ) (js : List Nat) :
    ((js.filterMap
        (fun j => if row.getD j 0 ≠ 0 then some (j, row.getD j 0) else none)).map
      (fun t => t.2 * x t.1)).sum
      = (js.map (fun j => row.getD j 0 * x j)).sum := by
  induction js with
  | nil => simp
  | cons j js ih =>
      by_cases h : row.getD j 0 ≠ 0
      · simp only [List.filterMap_cons, if_pos h, List.map_cons, List.sum_cons, ih]
      · simp only [List.filterMap_cons, if_neg h, ih, List.map_cons, List.sum_cons]
        rw [not_not.mp h]
        ring

theorem rowNonzeros_sum (row : List ℚ) (x : Nat → ℚ) :
    ((rowNonzeros row).map (fun t => t.2 * x t.1)).sum = dotRow row x :=
  filterMap_nonzero_sum row x (List.range row.length)

theorem foldl_set_length (ts : List (Nat × Nat × ℚ)) (acc : List LinExpr) :
    (ts.foldl (fun acc t =>
      acc.set t.1 ((acc.getD t.1 { const := 0, terms := [] }).subTerm t.2.1 t.2.2)) acc).length
      = acc.length := by
  induction ts generalizing acc with
  | nil => rfl
  | cons t ts ih => rw [List.foldl_cons, ih, List.length_set]

theorem eval_foldl_set (ts : List (Nat × Nat × ℚ)) (x : Nat → ℚ) :
    ∀ (acc : List LinExpr) (r : Nat), r < acc.length →
    ((ts.foldl (fun acc t =>
        acc.set t.1 ((acc.getD t.1 { const := 0, terms := [] }).subTerm t.2.1 t.2.2)) acc).getD r
        { const := 0, terms := [] }).eval x
      = (acc.getD r { const := 0, terms := [] }).eval x
        - ((ts.filter (fun t => decide (t.1 = r))).map (fun t => t.2.2 * x t.2.1)).sum := by
  induction ts with
  | nil =>
      intro acc r hr
      simp
  | cons t ts ih =>
      intro acc r hr
      rw [List.foldl_cons,
        ih _ r (by rw [List.length_set]; exact hr)]
      by_cases hrt : t.1 = r
      · have hget : (acc.set t.1
            ((acc.getD t.1 { const := 0, terms := [] }).subTerm t.2.1 t.2.2)).getD r
            { const := 0, terms := [] }
            = (acc.getD t.1 { const := 0, terms := [] }).subTerm t.2.1 t.2.2 := by
          subst hrt
          rw [List.getD_eq_getElem?_getD, List.getElem?_set_eq_of_lt _ hr]
          rfl
        rw [hget, LinExpr.eval_subTerm, List.filter_cons]
        rw [if_pos (by simpa using hrt), List.map_cons, List.sum_cons, hrt]
        ring
      · have hget : (acc.set t.1
            ((acc.getD t.1 { const := 0, terms := [] }).subTerm t.2.1 t.2.2)).getD r
            { const := 0, terms := [] }
            = acc.getD r { const := 0, terms := [] } := by
          rw [List.getD_eq_getElem?_getD, List.getElem?_set_ne hrt,
            ← List.getD_eq_getElem?_getD]
        rw [hget, List.filter_cons, if_neg (by simpa using hrt)]

theorem matNonzeros_filter_sum (M : List (List ℚ)) (r : Nat) (hr : r < M.length)
    (x : Nat → ℚ) :
    (((matNonzeros M).filter (fun t => decide (t.1 = r))).map
      (fun t => t.2.2 * x t.2.1)).sum
      = dotRow (M.getD r []) x := by
  have main : ∀ js : List Nat,
      (((js.flatMap (fun i => (rowNonzeros (M.getD i [])).map (fun t => (i, t.1, t.2)))).filter
        (fun t => decide (t.1 = r))).map (fun t => t.2.2 * x t.2.1)).sum
      = (js.map (fun i => if i = r then dotRow (M.getD r []) x else 0)).sum := by
    intro js
    induction js with
    | nil => simp
    | cons i js ih =>
        rw [List.flatMap_cons, List.filter_append, List.map_append, List.sum_append, ih]
        by_cases hir : i = r
        · subst hir
          have hkeep : ((rowNonzeros (M.getD i [])).map (fun t => (i, t.1, t.2))).filter
              (fun t => decide (t.1 = i))
              = (rowNonzeros (M.getD i [])).map (fun t => (i, t.1, t.2)) := by
            apply List.filter_eq_self.mpr
            intro a ha
            rcases List.mem_map.mp ha with ⟨t, _, rfl⟩
            simp
          rw [hkeep, List.map_map,
            show ((fun t : Nat × Nat × ℚ => t.2.2 * x t.2.1) ∘
              (fun t : Nat × ℚ => (i, t.1, t.2))) = (fun t : Nat × ℚ => t.2 * x t.1) from rfl,
            rowNonzeros_sum]
          simp
        · have hdrop : ((rowNonzeros (M.getD i [])).map (fun t => (i, t.1, t.2))).filter
              (fun t => decide (t.1 = r)) = [] := by
            apply List.filter_eq_nil_iff.mpr
            intro a ha
            rcases List.mem_map.mp ha with ⟨t, _, rfl⟩
            simp [hir]
          rw [hdrop]
          simp [hir]
  rw [show matNonzeros M
      = (List.range M.length).flatMap
          (fun i => (rowNonzeros (M.getD i [])).map (fun t => (i, t.1, t.2))) from rfl,
    main, sum_map_range,
    Finset.sum_ite_eq' (Finset.range M.length) r (fun _ => dotRow (M.getD r []) x)]
  simp [Finset.mem_range.mpr hr]

/-! ## C8 -/

/-- C8: cone mode B adds exactly one quadratic constraint and no auxiliary
variables or rows; the constraint's leg expressions and apex expression,
built by iterating each row's nonzero entries and subtracting coefficient
times variable term by term, evaluate at every assignment to
`b_i - A[r+i]·x` (legs, block rows 1..k-1) and `b_0 - A[r]·x` (apex). -/
theorem C8_coneModeB (Ablock : List (List ℚ)) (bblock : List ℚ)
    (hlen : Ablock.length = bblock.length) (x : Nat → ℚ) :
    ((coneModeB Ablock bblock).addedVars = 0 ∧
      (coneModeB Ablock bblock).addedRows = 0 ∧
      (coneModeB Ablock bblock).quad.length = 1) ∧
    (∀ q ∈ (coneModeB Ablock bblock).quad,
      q.lhs.length = Ablock.length - 1 ∧
      (∀ i, i < Ablock.length - 1 →
        (q.lhs.getD i { const := 0, terms := [] }).eval x =
          bblock.getD (i + 1) 0 - dotRow (Ablock.getD (i + 1) []) x) ∧
      q.rhs.eval x = bblock.getD 0 0 - dotRow (Ablock.getD 0 []) x) := by
  refine ⟨⟨rfl, rfl, rfl⟩, ?_⟩
  intro q hq
  have hquad : (coneModeB Ablock bblock).quad =
      [{ lhs := (matNonzeros (Ablock.drop 1)).foldl
            (fun acc t =>
              acc.set t.1 ((acc.getD t.1 { const := 0, terms := [] }).subTerm t.2.1 t.2.2))
            ((bblock.drop 1).map (fun bi => { const := bi, terms := [] }))
        , rhs := (rowNonzeros (Ablock.getD 0 [])).foldl
            (fun acc t => acc.subTerm t.1 t.2)
            { const := bblock.getD 0 0, terms := [] } }] := rfl
  rw [hquad] at hq
  rcases List.mem_singleton.mp hq with rfl
  have hlhs0len : ((bblock.drop 1).map
      (fun bi => ({ const := bi, terms := [] } : LinExpr))).length = Ablock.length - 1 := by
    rw [List.length_map, List.length_drop, hlen]
  refine ⟨?_, ?_, ?_⟩
  · rw [foldl_set_length, hlhs0len]
  · intro i hi
    have hib : 1 + i < bblock.length := by omega
    have hia : 1 + i < Ablock.length := by omega
    have hi0 : i < ((bblock.drop 1).map
        (fun bi => ({ const := bi, terms := [] } : LinExpr))).length := by
      rw [hlhs0len]; exact hi
    rw [eval_foldl_set (matNonzeros (Ablock.drop 1)) x _ i hi0]
    have hinit : ((bblock.drop 1).map
        (fun bi => ({ const := bi, terms := [] } : LinExpr))).getD i
          { const := 0, terms := [] }
        = { const := bblock.getD (i + 1) 0, terms := [] } := by
      rw [List.getD_eq_getElem?_getD, List.getElem?_map, List.getElem?_drop,
        List.getElem?_eq_getElem hib, List.getD_eq_getElem _ _ (by omega : i + 1 < bblock.length)]
      simp [Nat.add_comm]
    have hMi : i < (Ablock.drop 1).length := by
      rw [List.length_drop]; omega
    rw [hinit, matNonzeros_filter_sum (Ablock.drop 1) i hMi x]
    have hrow : (Ablock.drop 1).getD i [] = Ablock.getD (i + 1) [] := by
      rw [List.getD_eq_getElem?_getD, List.getElem?_drop, Nat.add_comm,
        ← List.getD_eq_getElem?_getD]
    rw [hrow]
    simp [LinExpr.eval]
  · rw [eval_foldl_subTerm, rowNonzeros_sum]
    simp [LinExpr.eval]

/-- Witness for C8 at a concrete 2-row cone block and assignment. -/
theorem C8_coneModeB_witness :
    (([[1, 0], [0, 2]] : List (List ℚ)).length = ([3, 4] : List ℚ).length) ∧
    (((coneModeB [[1, 0], [0, 2]] [3, 4]).addedVars = 0 ∧
      (coneModeB [[1, 0], [0, 2]] [3, 4]).addedRows = 0 ∧
      (coneModeB [[1, 0], [0, 2]] [3, 4]).quad.length = 1) ∧
    (∀ q ∈ (coneModeB [[1, 0], [0, 2]] [3, 4]).quad,
      q.lhs.length = ([[1, 0], [0, 2]] : List (List ℚ)).length - 1 ∧
      (∀ i, i < ([[1, 0], [0, 2]] : List (List ℚ)).length - 1 →
        (q.lhs.getD i { const := 0, terms := [] }).eval (fun j => (j : ℚ)) =
          ([3, 4] : List ℚ).getD (i + 1) 0 -
            dotRow (([[1, 0], [0, 2]] : List (List ℚ)).getD (i + 1) []) (fun j => (j : ℚ))) ∧
      q.rhs.eval (fun j => (j : ℚ)) = ([3, 4] : List ℚ).getD 0 0 -
        dotRow (([[1, 0], [0, 2]] : List (List ℚ)).getD 0 []) (fun j => (j : ℚ)))) :=
  ⟨by decide, C8_coneModeB [[1, 0], [0, 2]] [3, 4] (by decide) (fun j => (j : ℚ))⟩

/-- Witness for C7 at a cone block of size 3. -/
theorem C7_coneModeA_witness :
    1 ≤ 3 ∧
    (((coneModeA 3 [1, 2, 3] 5).varLbs.length = 3 ∧
      (coneModeA 3 [1, 2, 3] 5).varLbs.getD 0 none = some 0 ∧
      (∀ i, 0 < i → i < 3 → (coneModeA 3 [1, 2, 3] 5).varLbs.getD i (some 0) = none)) ∧
    ((coneModeA 3 [1, 2, 3] 5).rowTypes = List.replicate 3 'E' ∧
      (coneModeA 3 [1, 2, 3] 5).rowRhs = [1, 2, 3] ∧
      (coneModeA 3 [1, 2, 3] 5).tieCoefs.length = 3 ∧
      (∀ i, i < 3 →
        (coneModeA 3 [1, 2, 3] 5).tieCoefs.getD i (0, 0, 0) = (5 + i, i, 1))) ∧
    (3 = 1 → (coneModeA 3 [1, 2, 3] 5).quad = []) ∧
    (1 < 3 → (coneModeA 3 [1, 2, 3] 5).quad =
      [{ lhsIdx := List.range' 1 (3 - 1), rhsIdx := 0 }])) :=
  ⟨by decide, C7_coneModeA 3 [1, 2, 3] 5 (by decide)⟩

end XpressIntf
